import Mathlib

/-!
# Verification of `orientseq` (`src/orientseq/__main__.py`)

Shallow embedding of the orientation pipeline: the homopolymer-run scanner
`find_poly`, the classification policy of `read_and_write_fastx` /
`read_and_write_alignment`, the streaming statistics accumulation, and the
report computed by `print_stats`.  Sequences are `List Char`, the Python
dict `max_poly = \x7b'T': 0, 'A': 0\x7d` is the pair of fields `maxT`/`maxA`
keyed through the character-valued `current_poly_base`, and counters are
`Nat` (they only ever grow from 0 by addition).  The command-line threshold
is an `Int`, since Python's `argparse` with `type=int` accepts any integer,
negative ones included.
-/

set_option autoImplicit false

namespace OrientSeq

/-- Loop state of `find_poly`: the dict `max_poly` (fields `maxT`, `maxA`),
`current_poly_length`, `current_mismatches`, and `current_poly_base`. -/
structure ScanState where
  maxT : Nat
  maxA : Nat
  current_poly_length : Nat
  current_mismatches : Nat
  current_poly_base : Char
  deriving Repr, DecidableEq

/-- Initial loop state of `find_poly`: both best values 0, run length and
mismatch count 0, target base `'T'`. -/
def initScanState : ScanState :=
  { maxT := 0, maxA := 0, current_poly_length := 0, current_mismatches := 0,
    current_poly_base := 'T' }

/-- `max_poly[current_poly_base] = max(max_poly[current_poly_base], n)`:
the dict update is keyed by the current *target* base. -/
def updateBucket (s : ScanState) (n : Nat) : ScanState :=
  if s.current_poly_base = 'T' then { s with maxT := max s.maxT n }
  else if s.current_poly_base = 'A' then { s with maxA := max s.maxA n }
  else s

/-- One iteration of the `for i, base in enumerate(sequence)` loop of
`find_poly`: at `i == len(sequence) // 2` the run resets and the target
switches to `'A'`; a matching base extends the run and updates the target's
best; a mismatching base either consumes mismatch budget or force-closes the
run, recording `current_poly_length` into the target's bucket. -/
def find_poly_step (max_mismatches halfIdx : Nat) (s : ScanState) (i : Nat)
    (base : Char) : ScanState :=
  let s :=
    if i = halfIdx then
      { s with current_poly_length := 0, current_mismatches := 0,
               current_poly_base := 'A' }
    else s
  if base = s.current_poly_base then
    let s := { s with current_poly_length := s.current_poly_length + 1,
                      current_mismatches := 0 }
    updateBucket s s.current_poly_length
  else if s.current_mismatches < max_mismatches then
    { s with current_mismatches := s.current_mismatches + 1,
             current_poly_length := s.current_poly_length + 1 }
  else
    let s := updateBucket s s.current_poly_length
    { s with current_poly_length := 0, current_mismatches := 0 }

/-- The loop of `find_poly`, with the running index made explicit. -/
def find_poly_go (max_mismatches halfIdx : Nat) :
    Nat → ScanState → List Char → ScanState
  | _, s, [] => s
  | i, s, base :: rest =>
      find_poly_go max_mismatches halfIdx (i + 1)
        (find_poly_step max_mismatches halfIdx s i base) rest

/-- `find_poly(sequence, max_mismatches)` returning the final dict as the
pair `(max_poly['T'], max_poly['A'])`. -/
def find_poly (sequence : List Char) (max_mismatches : Nat) : Nat × Nat :=
  let final :=
    find_poly_go max_mismatches (sequence.length / 2) 0 initScanState sequence
  (final.maxT, final.maxA)

/-- The three possible outcomes of the per-record decision (the three
branches of `read_and_write_fastx` / `read_and_write_alignment`). -/
inductive Classification where
  | Forward
  | ReverseComplement
  | Ambiguous
  deriving Repr, DecidableEq

/-- The branch structure shared by `read_and_write_fastx` and
`read_and_write_alignment`: with `diff = max_poly['A'] - max_poly['T']`,
`abs(diff) < threshold` is ambiguous, else `diff < 0` is
reverse-complement, else forward. -/
def classify (aLen tLen : Nat) (threshold : Int) : Classification :=
  let diff : Int := (aLen : Int) - (tLen : Int)
  if |diff| < threshold then Classification.Ambiguous
  else if diff < 0 then Classification.ReverseComplement
  else Classification.Forward

/-- Classification a sequence receives in the pipeline: `find_poly` is run
with mismatch tolerance 0 (as both reader loops do) and the branch is
chosen on `diff = max_poly['A'] - max_poly['T']`. -/
def classifySeq (threshold : Int) (sequence : List Char) : Classification :=
  classify (find_poly sequence 0).2 (find_poly sequence 0).1 threshold

/-- A variant scanner that follows the specification's words for the forced
close, for comparison with `find_poly`.  The specification says the close
records the run's final length "into `best*` for the *currently observed
symbol's* bucket" (bestA when the observed base is `'A'`, bestT when it is
`'T'`, a no-op otherwise); everywhere else the variant is identical to
`find_poly`. -/
def specCloseBucket (s : ScanState) (base : Char) (n : Nat) : ScanState :=
  if base = 'A' then { s with maxA := max s.maxA n }
  else if base = 'T' then { s with maxT := max s.maxT n }
  else s

/-- One loop iteration of the specification-worded scanner: identical to
`find_poly_step` except that the forced close writes the observed base's
bucket via `specCloseBucket`. -/
def find_poly_specStep (max_mismatches halfIdx : Nat) (s : ScanState)
    (i : Nat) (base : Char) : ScanState :=
  let s :=
    if i = halfIdx then
      { s with current_poly_length := 0, current_mismatches := 0,
               current_poly_base := 'A' }
    else s
  if base = s.current_poly_base then
    let s := { s with current_poly_length := s.current_poly_length + 1,
                      current_mismatches := 0 }
    updateBucket s s.current_poly_length
  else if s.current_mismatches < max_mismatches then
    { s with current_mismatches := s.current_mismatches + 1,
             current_poly_length := s.current_poly_length + 1 }
  else
    let s := specCloseBucket s base s.current_poly_length
    { s with current_poly_length := 0, current_mismatches := 0 }

/-- Loop of the specification-worded scanner. -/
def find_poly_specGo (max_mismatches halfIdx : Nat) :
    Nat → ScanState → List Char → ScanState
  | _, s, [] => s
  | i, s, base :: rest =>
      find_poly_specGo max_mismatches halfIdx (i + 1)
        (find_poly_specStep max_mismatches halfIdx s i base) rest

/-- The scanner as the specification words it (forced close keyed on the
observed symbol), returning `(bestT, bestA)`. -/
def find_poly_specClaim (sequence : List Char) (max_mismatches : Nat) :
    Nat × Nat :=
  let final :=
    find_poly_specGo max_mismatches (sequence.length / 2) 0 initScanState
      sequence
  (final.maxT, final.maxA)

/-- The complementary nucleotide.  Modelled from the spec: `Bio.Seq`'s
complementation is an excluded external primitive, specified in the
glossary as "substituting each base with its complementary base (A↔T,
C↔G)". -/
def complementBase (c : Char) : Char :=
  if c = 'A' then 'T'
  else if c = 'T' then 'A'
  else if c = 'C' then 'G'
  else if c = 'G' then 'C'
  else c

/-- `str(Seq(x).reverse_complement())`.  Modelled from the spec's glossary:
"reversing the order of bases and substituting each base with its
complementary base". -/
def reverse_complement (sequence : List Char) : List Char :=
  sequence.reverse.map complementBase

/-- A FASTX record as `read_and_write_fastx` sees it: `read.name`,
`read.sequence`, and `read.quality` (absent for FASTA input). -/
structure FastxRecord where
  name : String
  sequence : List Char
  quality : Option (List Char)
  deriving Repr, DecidableEq

/-- An alignment record as `read_and_write_alignment` sees it:
`read.query_name` and `read.query_sequence`. -/
structure AlignedRead where
  query_name : String
  query_sequence : List Char
  deriving Repr, DecidableEq

/-- The stats dict initialised at the top of both reader loops and printed
by `print_stats`. -/
structure Stats where
  fwd_cnt : Nat
  fwd_len : Nat
  revcomp_cnt : Nat
  revcomp_len : Nat
  ambigous_cnt : Nat
  ambigous_len : Nat
  polyA_len : Nat
  polyT_len : Nat
  deriving Repr, DecidableEq

/-- `stats = \x7b'fwd_cnt': 0, ...\x7d`: every counter starts at 0. -/
def initStats : Stats :=
  { fwd_cnt := 0, fwd_len := 0, revcomp_cnt := 0, revcomp_len := 0,
    ambigous_cnt := 0, ambigous_len := 0, polyA_len := 0, polyT_len := 0 }

/-- One iteration of the `for read in f` loop of `read_and_write_fastx`:
returns the updated stats and the record as emitted (`read.quality` is
never touched; in the reverse-complement branch `read.sequence` is
reassigned before `len(read.sequence)` is added to the stats). -/
def processFastx (threshold : Int) (stats : Stats) (read : FastxRecord) :
    Stats × FastxRecord :=
  let max_poly := find_poly read.sequence 0
  let diff : Int := (max_poly.2 : Int) - (max_poly.1 : Int)
  if |diff| < threshold then
    ({ stats with ambigous_cnt := stats.ambigous_cnt + 1,
                  ambigous_len := stats.ambigous_len + read.sequence.length },
     read)
  else if diff < 0 then
    let read := { read with sequence := reverse_complement read.sequence }
    ({ stats with revcomp_cnt := stats.revcomp_cnt + 1,
                  revcomp_len := stats.revcomp_len + read.sequence.length,
                  polyT_len := stats.polyT_len + max_poly.1 },
     read)
  else
    ({ stats with fwd_cnt := stats.fwd_cnt + 1,
                  fwd_len := stats.fwd_len + read.sequence.length,
                  polyA_len := stats.polyA_len + max_poly.2 },
     read)

/-- The loop of `read_and_write_fastx` over a finite stream, threaded
through an arbitrary incoming stats value; returns the final stats and the
emitted records in stream order. -/
def read_and_write_fastx_go (threshold : Int) (stats : Stats) :
    List FastxRecord → Stats × List FastxRecord
  | [] => (stats, [])
  | read :: rest =>
      let p := processFastx threshold stats read
      let q := read_and_write_fastx_go threshold p.1 rest
      (q.1, p.2 :: q.2)

/-- `read_and_write_fastx(f, out, threshold)`: stats start from zero, each
record is classified, possibly reverse-complemented, and written out. -/
def read_and_write_fastx (threshold : Int) (stream : List FastxRecord) :
    Stats × List FastxRecord :=
  read_and_write_fastx_go threshold initStats stream

/-- One iteration of the `for read in f` loop of
`read_and_write_alignment`: identical decision logic, acting on
`read.query_sequence`. -/
def processAlignment (threshold : Int) (stats : Stats) (read : AlignedRead) :
    Stats × AlignedRead :=
  let max_poly := find_poly read.query_sequence 0
  let diff : Int := (max_poly.2 : Int) - (max_poly.1 : Int)
  if |diff| < threshold then
    ({ stats with ambigous_cnt := stats.ambigous_cnt + 1,
                  ambigous_len :=
                    stats.ambigous_len + read.query_sequence.length },
     read)
  else if diff < 0 then
    let read :=
      { read with query_sequence := reverse_complement read.query_sequence }
    ({ stats with revcomp_cnt := stats.revcomp_cnt + 1,
                  revcomp_len :=
                    stats.revcomp_len + read.query_sequence.length,
                  polyT_len := stats.polyT_len + max_poly.1 },
     read)
  else
    ({ stats with fwd_cnt := stats.fwd_cnt + 1,
                  fwd_len := stats.fwd_len + read.query_sequence.length,
                  polyA_len := stats.polyA_len + max_poly.2 },
     read)

/-- The loop of `read_and_write_alignment` over a finite stream, threaded
through an arbitrary incoming stats value. -/
def read_and_write_alignment_go (threshold : Int) (stats : Stats) :
    List AlignedRead → Stats × List AlignedRead
  | [] => (stats, [])
  | read :: rest =>
      let p := processAlignment threshold stats read
      let q := read_and_write_alignment_go threshold p.1 rest
      (q.1, p.2 :: q.2)

/-- `read_and_write_alignment(f, out, threshold)`. -/
def read_and_write_alignment (threshold : Int) (stream : List AlignedRead) :
    Stats × List AlignedRead :=
  read_and_write_alignment_go threshold initStats stream

/-- The numbers `print_stats` reports: per-category counts and the six
smoothed averages, each computed as `total / (count + 0.001)`.  The Python
float arithmetic is modelled over `ℚ`, with `0.001 = 1/1000` exact. -/
structure StatsReport where
  fwd_cnt : Nat
  fwd_avg_len : ℚ
  polyA_avg : ℚ
  revcomp_cnt : Nat
  revcomp_avg_len : ℚ
  polyT_avg : ℚ
  ambigous_cnt : Nat
  ambigous_avg_len : ℚ
  deriving Repr, DecidableEq

/-- `print_stats(stats, ...)`, as the report it renders. -/
def print_stats (stats : Stats) : StatsReport :=
  { fwd_cnt := stats.fwd_cnt
    fwd_avg_len := (stats.fwd_len : ℚ) / ((stats.fwd_cnt : ℚ) + 1 / 1000)
    polyA_avg := (stats.polyA_len : ℚ) / ((stats.fwd_cnt : ℚ) + 1 / 1000)
    revcomp_cnt := stats.revcomp_cnt
    revcomp_avg_len :=
      (stats.revcomp_len : ℚ) / ((stats.revcomp_cnt : ℚ) + 1 / 1000)
    polyT_avg := (stats.polyT_len : ℚ) / ((stats.revcomp_cnt : ℚ) + 1 / 1000)
    ambigous_cnt := stats.ambigous_cnt
    ambigous_avg_len :=
      (stats.ambigous_len : ℚ) / ((stats.ambigous_cnt : ℚ) + 1 / 1000) }

/-- Records of a stream receiving a given classification. -/
def recordsClassified (threshold : Int) (c : Classification)
    (stream : List AlignedRead) : List AlignedRead :=
  stream.filter (fun read => classifySeq threshold read.query_sequence = c)

/-- Number of records of a stream receiving a given classification. -/
def countClassified (threshold : Int) (c : Classification)
    (stream : List AlignedRead) : Nat :=
  (recordsClassified threshold c stream).length

/-- Sum of input sequence lengths over the records of a stream receiving a
given classification. -/
def sumLenClassified (threshold : Int) (c : Classification)
    (stream : List AlignedRead) : Nat :=
  ((recordsClassified threshold c stream).map
    (fun read => read.query_sequence.length)).sum

/-- Sum of `max_poly['A']` over the Forward records of a stream. -/
def sumPolyA (threshold : Int) (stream : List AlignedRead) : Nat :=
  ((recordsClassified threshold Classification.Forward stream).map
    (fun read => (find_poly read.query_sequence 0).2)).sum

/-- Sum of `max_poly['T']` over the ReverseComplement records of a stream. -/
def sumPolyT (threshold : Int) (stream : List AlignedRead) : Nat :=
  ((recordsClassified threshold Classification.ReverseComplement stream).map
    (fun read => (find_poly read.query_sequence 0).1)).sum

end OrientSeq

namespace OrientSeq

/-- C1: the classifier is a total function of the two run lengths and the
threshold: with `diff = aLen - tLen`, the result is `Ambiguous` exactly when
`abs(diff) < ambiguityThreshold`, `ReverseComplement` exactly when the gap
is at least the threshold and `diff < 0`, and `Forward` exactly when the gap
is at least the threshold and `diff ≥ 0`.  The three right-hand conditions
are mutually exclusive and exhaustive, so exactly one classification
results for every triple. -/
theorem classify_total_decision (tLen aLen : Nat) (threshold : Int)
    (hth : 0 ≤ threshold) :
    (classify aLen tLen threshold = Classification.Ambiguous ↔
      |(aLen : Int) - (tLen : Int)| < threshold) ∧
    (classify aLen tLen threshold = Classification.ReverseComplement ↔
      threshold ≤ |(aLen : Int) - (tLen : Int)| ∧
        (aLen : Int) - (tLen : Int) < 0) ∧
    (classify aLen tLen threshold = Classification.Forward ↔
      threshold ≤ |(aLen : Int) - (tLen : Int)| ∧
        0 ≤ (aLen : Int) - (tLen : Int)) := by
  have key : classify aLen tLen threshold =
      (if |(aLen : Int) - (tLen : Int)| < threshold then
        Classification.Ambiguous
       else if (aLen : Int) - (tLen : Int) < 0 then
        Classification.ReverseComplement
       else Classification.Forward) := rfl
  rw [key]
  split_ifs with h1 h2 <;> refine ⟨?_, ?_, ?_⟩ <;> simp_all

/-- Witness for `classify_total_decision` at `tLen = 7`, `aLen = 0`,
`threshold = 5`: the gap is 7 ≥ 5 and `diff = -7 < 0`, so the record is
classified `ReverseComplement`. -/
theorem classify_total_decision_witness :
    (0 : Int) ≤ 5 ∧ classify 0 7 5 = Classification.ReverseComplement := by
  refine ⟨by norm_num, ?_⟩
  exact (classify_total_decision 7 0 5 (by norm_num)).2.1.mpr
    ⟨by norm_num, by norm_num⟩

/-- C2 (code bug): on a record carrying quality values that is classified
`ReverseComplement`, `read_and_write_fastx` replaces the sequence by its
reverse complement but emits `read.quality` unchanged, not reversed: on the
record `("r", "TTTTTTTTTT", "0123456789")` with threshold 5 the emitted
quality equals the input quality, while its reverse differs from it. -/
theorem revcomp_quality_unreversed :
    classifySeq 5 "TTTTTTTTTT".toList = Classification.ReverseComplement ∧
    (processFastx 5 initStats
        ⟨"r", "TTTTTTTTTT".toList, some "0123456789".toList⟩).2.sequence
      = reverse_complement "TTTTTTTTTT".toList ∧
    (processFastx 5 initStats
        ⟨"r", "TTTTTTTTTT".toList, some "0123456789".toList⟩).2.quality
      = some "0123456789".toList ∧
    "0123456789".toList.reverse ≠ "0123456789".toList := by decide

/-- C3 counterexample: the claim says a forced close records the run's
final length into the *currently observed* symbol's bucket (a no-op when
that symbol is neither 'A' nor 'T').  On `"TTCC"` with mismatch tolerance 1
the close at index 3 observes `'C'`, so under the claim neither bucket
changes and the scanner would return `(2, 0)`; `find_poly` records into the
current *target* bucket (`'A'`) and returns `(2, 1)`. -/
theorem forced_close_observed_bucket_counterexample :
    find_poly "TTCC".toList 1 = (2, 1) ∧
    find_poly_specClaim "TTCC".toList 1 = (2, 0) ∧
    find_poly "TTCC".toList 1 ≠ find_poly_specClaim "TTCC".toList 1 := by
  decide

/-- C3 (amended): when the observed symbol differs from the current target
symbol and the mismatch budget is exhausted, the run is forced closed by
recording the run's final length into the best bucket of the current
*target* symbol — `maxT` if the target is `'T'`, `maxA` if it is `'A'`,
regardless of the observed symbol — after which `current_poly_length` and
`current_mismatches` are reset to 0 and the target is unchanged. -/
theorem forced_close_target_bucket (max_mismatches halfIdx i : Nat)
    (s : ScanState) (base : Char) (hi : i ≠ halfIdx)
    (hb : base ≠ s.current_poly_base)
    (hm : ¬ s.current_mismatches < max_mismatches) :
    (find_poly_step max_mismatches halfIdx s i base).maxT
      = (if s.current_poly_base = 'T'
          then max s.maxT s.current_poly_length else s.maxT) ∧
    (find_poly_step max_mismatches halfIdx s i base).maxA
      = (if s.current_poly_base = 'A'
          then max s.maxA s.current_poly_length else s.maxA) ∧
    (find_poly_step max_mismatches halfIdx s i base).current_poly_length
      = 0 ∧
    (find_poly_step max_mismatches halfIdx s i base).current_mismatches
      = 0 ∧
    (find_poly_step max_mismatches halfIdx s i base).current_poly_base
      = s.current_poly_base := by
  unfold find_poly_step updateBucket
  simp only [if_neg hi, if_neg hb, if_neg hm]
  split_ifs with h1 h2 <;> simp_all

/-- Witness for `forced_close_target_bucket`: in the first half (target
`'T'`, index 1 with split index 5), observing `'C'` with a run of length 2
and no remaining budget closes the run into `maxT`. -/
theorem forced_close_target_bucket_witness :
    (1 : Nat) ≠ 5 ∧ ('C' : Char) ≠ 'T' ∧ ¬ (0 : Nat) < 0 ∧
    ((find_poly_step 0 5 ⟨1, 0, 2, 0, 'T'⟩ 1 'C').maxT
        = (if ('T' : Char) = 'T' then max 1 2 else 1) ∧
     (find_poly_step 0 5 ⟨1, 0, 2, 0, 'T'⟩ 1 'C').maxA
        = (if ('T' : Char) = 'A' then max 0 2 else 0) ∧
     (find_poly_step 0 5 ⟨1, 0, 2, 0, 'T'⟩ 1 'C').current_poly_length = 0 ∧
     (find_poly_step 0 5 ⟨1, 0, 2, 0, 'T'⟩ 1 'C').current_mismatches = 0 ∧
     (find_poly_step 0 5 ⟨1, 0, 2, 0, 'T'⟩ 1 'C').current_poly_base = 'T') :=
  ⟨by decide, by decide, by decide,
    forced_close_target_bucket 0 5 1 ⟨1, 0, 2, 0, 'T'⟩ 'C' (by decide)
      (by decide) (by decide)⟩

/-- C4 counterexample: with the configured threshold 0 (a non-negative
value) an empty sequence still yields run lengths `(0, 0)`, but
`abs(0) < 0` is false and `diff = 0 ≥ 0`, so the record is classified
`Forward`, not `Ambiguous`. -/
theorem empty_sequence_threshold_zero_forward :
    (0 : Int) ≥ 0 ∧
    find_poly [] 0 = (0, 0) ∧
    classifySeq 0 [] = Classification.Forward ∧
    Classification.Forward ≠ Classification.Ambiguous := by decide

/-- C4 (amended): for every *positive* configured threshold, a record with
empty sequence is a defined edge case: the scanner returns `(0, 0)` and the
record is classified `Ambiguous`.  (With threshold 0 it classifies
`Forward`.) -/
theorem empty_sequence_ambiguous (threshold : Int) (h : 0 < threshold) :
    find_poly [] 0 = (0, 0) ∧
    classifySeq threshold [] = Classification.Ambiguous := by
  refine ⟨rfl, ?_⟩
  show classify 0 0 threshold = Classification.Ambiguous
  unfold classify
  simp
  omega

/-- Witness for `empty_sequence_ambiguous` at the default threshold 5. -/
theorem empty_sequence_ambiguous_witness :
    (0 : Int) < 5 ∧
    (find_poly [] 0 = (0, 0) ∧
      classifySeq 5 [] = Classification.Ambiguous) :=
  ⟨by norm_num, empty_sequence_ambiguous 5 (by norm_num)⟩

/-- C5 (code bug): a negative threshold is not rejected — `parse_arguments`
accepts any `int` and `main` performs no validation, so the stream is
processed normally.  With threshold `-1` the single record `("r", "AAAA")`
is classified `Forward`, counted in the stats, and emitted: the pipeline
neither fails fast nor withholds output. -/
theorem negative_threshold_not_rejected :
    (read_and_write_fastx (-1) [⟨"r", "AAAA".toList, none⟩]).1.fwd_cnt = 1 ∧
    (read_and_write_fastx (-1) [⟨"r", "AAAA".toList, none⟩]).2
      = [⟨"r", "AAAA".toList, none⟩] ∧
    classifySeq (-1) "AAAA".toList = Classification.Forward := by decide

/-- C7: on `"TTTTTCCCCCAAAAA"` (length 15, split index 7) with mismatch
tolerance 0 the scanner returns `bestT = 5` and `bestA = 5`, so `diff = 0`,
and with threshold 5 the record is classified `Ambiguous`. -/
theorem scenario_mixed_sequence_ambiguous :
    "TTTTTCCCCCAAAAA".toList.length = 15 ∧
    "TTTTTCCCCCAAAAA".toList.length / 2 = 7 ∧
    find_poly "TTTTTCCCCCAAAAA".toList 0 = (5, 5) ∧
    classifySeq 5 "TTTTTCCCCCAAAAA".toList = Classification.Ambiguous := by
  decide

/-- C8: for every mismatch tolerance, the scanner returns `(0, 0)` on the
empty sequence. -/
theorem find_poly_empty (max_mismatches : Nat) :
    find_poly [] max_mismatches = (0, 0) := rfl

/-- The reverse complement of a sequence has the same length. -/
theorem reverse_complement_length (sequence : List Char) :
    (reverse_complement sequence).length = sequence.length := by
  simp [reverse_complement]

set_option maxRecDepth 4000

/-- A record not classified `ReverseComplement` passes through
`read_and_write_alignment`'s loop body unchanged. -/
theorem processAlignment_snd_not_revcomp (threshold : Int) (stats : Stats)
    (read : AlignedRead)
    (h : classifySeq threshold read.query_sequence ≠
      Classification.ReverseComplement) :
    (processAlignment threshold stats read).2 = read := by
  have keyC : classifySeq threshold read.query_sequence =
      (if |((find_poly read.query_sequence 0).2 : Int) -
            ((find_poly read.query_sequence 0).1 : Int)| < threshold then
        Classification.Ambiguous
       else if ((find_poly read.query_sequence 0).2 : Int) -
            ((find_poly read.query_sequence 0).1 : Int) < 0 then
        Classification.ReverseComplement
       else Classification.Forward) := rfl
  rw [keyC] at h
  simp only [processAlignment]
  split_ifs at h ⊢ <;> simp_all

/-- A record not classified `ReverseComplement` passes through
`read_and_write_fastx`'s loop body unchanged. -/
theorem processFastx_snd_not_revcomp (threshold : Int) (stats : Stats)
    (read : FastxRecord)
    (h : classifySeq threshold read.sequence ≠
      Classification.ReverseComplement) :
    (processFastx threshold stats read).2 = read := by
  have keyC : classifySeq threshold read.sequence =
      (if |((find_poly read.sequence 0).2 : Int) -
            ((find_poly read.sequence 0).1 : Int)| < threshold then
        Classification.Ambiguous
       else if ((find_poly read.sequence 0).2 : Int) -
            ((find_poly read.sequence 0).1 : Int) < 0 then
        Classification.ReverseComplement
       else Classification.Forward) := rfl
  rw [keyC] at h
  simp only [processFastx]
  split_ifs at h ⊢ <;> simp_all

/-- The stats update of `read_and_write_alignment`'s loop body, expressed
by the record's classification.  In the reverse-complement branch the code
adds the length of the already-mutated sequence, which equals the input
length since reverse complementation preserves length. -/
theorem processAlignment_fst (threshold : Int) (stats : Stats)
    (read : AlignedRead) :
    (processAlignment threshold stats read).1 =
      (if classifySeq threshold read.query_sequence = Classification.Ambiguous
       then
        { stats with ambigous_cnt := stats.ambigous_cnt + 1,
                     ambigous_len :=
                       stats.ambigous_len + read.query_sequence.length }
       else if classifySeq threshold read.query_sequence =
          Classification.ReverseComplement then
        { stats with revcomp_cnt := stats.revcomp_cnt + 1,
                     revcomp_len :=
                       stats.revcomp_len + read.query_sequence.length,
                     polyT_len :=
                       stats.polyT_len + (find_poly read.query_sequence 0).1 }
       else
        { stats with fwd_cnt := stats.fwd_cnt + 1,
                     fwd_len := stats.fwd_len + read.query_sequence.length,
                     polyA_len :=
                       stats.polyA_len +
                         (find_poly read.query_sequence 0).2 }) := by
  have keyC : classifySeq threshold read.query_sequence =
      (if |((find_poly read.query_sequence 0).2 : Int) -
            ((find_poly read.query_sequence 0).1 : Int)| < threshold then
        Classification.Ambiguous
       else if ((find_poly read.query_sequence 0).2 : Int) -
            ((find_poly read.query_sequence 0).1 : Int) < 0 then
        Classification.ReverseComplement
       else Classification.Forward) := rfl
  rw [keyC]
  simp only [processAlignment]
  split_ifs <;> simp_all [reverse_complement_length]

/-- Filtering a stream for one classification, cons case. -/
theorem recordsClassified_cons (threshold : Int) (c : Classification)
    (read : AlignedRead) (rest : List AlignedRead) :
    recordsClassified threshold c (read :: rest) =
      if classifySeq threshold read.query_sequence = c then
        read :: recordsClassified threshold c rest
      else recordsClassified threshold c rest := by
  simp [recordsClassified, List.filter_cons]

/-- Per-classification record count, cons case. -/
theorem countClassified_cons (threshold : Int) (c : Classification)
    (read : AlignedRead) (rest : List AlignedRead) :
    countClassified threshold c (read :: rest) =
      (if classifySeq threshold read.query_sequence = c then 1 else 0) +
        countClassified threshold c rest := by
  simp only [countClassified, recordsClassified_cons]
  split_ifs <;> simp [Nat.add_comm]

/-- Per-classification length sum, cons case. -/
theorem sumLenClassified_cons (threshold : Int) (c : Classification)
    (read : AlignedRead) (rest : List AlignedRead) :
    sumLenClassified threshold c (read :: rest) =
      (if classifySeq threshold read.query_sequence = c then
        read.query_sequence.length else 0) +
        sumLenClassified threshold c rest := by
  simp only [sumLenClassified, recordsClassified_cons]
  split_ifs <;> simp

/-- Poly-A sum over Forward records, cons case. -/
theorem sumPolyA_cons (threshold : Int) (read : AlignedRead)
    (rest : List AlignedRead) :
    sumPolyA threshold (read :: rest) =
      (if classifySeq threshold read.query_sequence =
          Classification.Forward then
        (find_poly read.query_sequence 0).2 else 0) +
        sumPolyA threshold rest := by
  simp only [sumPolyA, recordsClassified_cons]
  split_ifs <;> simp

/-- Poly-T sum over ReverseComplement records, cons case. -/
theorem sumPolyT_cons (threshold : Int) (read : AlignedRead)
    (rest : List AlignedRead) :
    sumPolyT threshold (read :: rest) =
      (if classifySeq threshold read.query_sequence =
          Classification.ReverseComplement then
        (find_poly read.query_sequence 0).1 else 0) +
        sumPolyT threshold rest := by
  simp only [sumPolyT, recordsClassified_cons]
  split_ifs <;> simp

/-- Running `read_and_write_alignment`'s loop from an arbitrary incoming
stats value adds exactly the per-classification counts and sums of the
stream to each counter. -/
theorem read_and_write_alignment_go_stats (threshold : Int) :
    ∀ (stream : List AlignedRead) (stats : Stats),
    (read_and_write_alignment_go threshold stats stream).1 =
      { fwd_cnt := stats.fwd_cnt +
          countClassified threshold Classification.Forward stream,
        fwd_len := stats.fwd_len +
          sumLenClassified threshold Classification.Forward stream,
        revcomp_cnt := stats.revcomp_cnt +
          countClassified threshold Classification.ReverseComplement stream,
        revcomp_len := stats.revcomp_len +
          sumLenClassified threshold Classification.ReverseComplement stream,
        ambigous_cnt := stats.ambigous_cnt +
          countClassified threshold Classification.Ambiguous stream,
        ambigous_len := stats.ambigous_len +
          sumLenClassified threshold Classification.Ambiguous stream,
        polyA_len := stats.polyA_len + sumPolyA threshold stream,
        polyT_len := stats.polyT_len + sumPolyT threshold stream }
  | [], stats => by
      simp [read_and_write_alignment_go, countClassified, recordsClassified,
        sumLenClassified, sumPolyA, sumPolyT]
  | read :: rest, stats => by
      simp only [read_and_write_alignment_go]
      rw [read_and_write_alignment_go_stats threshold rest
        (processAlignment threshold stats read).1]
      rw [processAlignment_fst]
      rcases hcl : classifySeq threshold read.query_sequence with _ | _ | _ <;>
        simp [hcl, countClassified_cons, sumLenClassified_cons, sumPolyA_cons,
          sumPolyT_cons, Stats.mk.injEq] <;> omega

/-- C6: after consuming a finite stream, the stats hold the exact
per-classification record counts, the per-category sums of sequence
lengths, the poly-A sum over Forward records and the poly-T sum over
ReverseComplement records; each reported average equals the category's sum
divided by `count + 1/1000` (the fixed smoothing constant ε = 0.001), whose
denominator is strictly positive even for a zero-count category, so every
reported average is a finite value. -/
theorem aggregator_stats_correct (threshold : Int)
    (stream : List AlignedRead) :
    (read_and_write_alignment threshold stream).1 =
      { fwd_cnt := countClassified threshold Classification.Forward stream,
        fwd_len := sumLenClassified threshold Classification.Forward stream,
        revcomp_cnt :=
          countClassified threshold Classification.ReverseComplement stream,
        revcomp_len :=
          sumLenClassified threshold Classification.ReverseComplement stream,
        ambigous_cnt :=
          countClassified threshold Classification.Ambiguous stream,
        ambigous_len :=
          sumLenClassified threshold Classification.Ambiguous stream,
        polyA_len := sumPolyA threshold stream,
        polyT_len := sumPolyT threshold stream } ∧
    print_stats (read_and_write_alignment threshold stream).1 =
      { fwd_cnt := countClassified threshold Classification.Forward stream,
        fwd_avg_len :=
          (sumLenClassified threshold Classification.Forward stream : ℚ) /
            ((countClassified threshold Classification.Forward stream : ℚ) +
              1 / 1000),
        polyA_avg := (sumPolyA threshold stream : ℚ) /
          ((countClassified threshold Classification.Forward stream : ℚ) +
            1 / 1000),
        revcomp_cnt :=
          countClassified threshold Classification.ReverseComplement stream,
        revcomp_avg_len :=
          (sumLenClassified threshold Classification.ReverseComplement
              stream : ℚ) /
            ((countClassified threshold Classification.ReverseComplement
              stream : ℚ) + 1 / 1000),
        polyT_avg := (sumPolyT threshold stream : ℚ) /
          ((countClassified threshold Classification.ReverseComplement
            stream : ℚ) + 1 / 1000),
        ambigous_cnt :=
          countClassified threshold Classification.Ambiguous stream,
        ambigous_avg_len :=
          (sumLenClassified threshold Classification.Ambiguous stream : ℚ) /
            ((countClassified threshold Classification.Ambiguous
              stream : ℚ) + 1 / 1000) } ∧
    (0 : ℚ) <
      (countClassified threshold Classification.Forward stream : ℚ) +
        1 / 1000 ∧
    (0 : ℚ) <
      (countClassified threshold Classification.ReverseComplement
        stream : ℚ) + 1 / 1000 ∧
    (0 : ℚ) <
      (countClassified threshold Classification.Ambiguous stream : ℚ) +
        1 / 1000 := by
  have h1 : (read_and_write_alignment threshold stream).1 =
      { fwd_cnt := countClassified threshold Classification.Forward stream,
        fwd_len := sumLenClassified threshold Classification.Forward stream,
        revcomp_cnt :=
          countClassified threshold Classification.ReverseComplement stream,
        revcomp_len :=
          sumLenClassified threshold Classification.ReverseComplement stream,
        ambigous_cnt :=
          countClassified threshold Classification.Ambiguous stream,
        ambigous_len :=
          sumLenClassified threshold Classification.Ambiguous stream,
        polyA_len := sumPolyA threshold stream,
        polyT_len := sumPolyT threshold stream } := by
    rw [read_and_write_alignment,
      read_and_write_alignment_go_stats threshold stream initStats]
    simp [initStats]
  refine ⟨h1, ?_, by positivity, by positivity, by positivity⟩
  rw [h1]
  rfl

/-- C9: a record classified `Forward` or `Ambiguous` is emitted exactly as
read: the only branch of either reader loop that mutates a record is the
`ReverseComplement` one.  Stated for both `read_and_write_alignment`'s loop
body (alignment records) and `read_and_write_fastx`'s (records that may
carry quality). -/
theorem forward_ambiguous_emit_unmodified (threshold : Int)
    (stats stats2 : Stats) (read : AlignedRead) (fx : FastxRecord)
    (ha : classifySeq threshold read.query_sequence =
            Classification.Forward ∨
          classifySeq threshold read.query_sequence =
            Classification.Ambiguous)
    (hf : classifySeq threshold fx.sequence = Classification.Forward ∨
          classifySeq threshold fx.sequence = Classification.Ambiguous) :
    (processAlignment threshold stats read).2 = read ∧
    (processFastx threshold stats2 fx).2 = fx := by
  constructor
  · apply processAlignment_snd_not_revcomp
    rcases ha with h | h <;> simp [h]
  · apply processFastx_snd_not_revcomp
    rcases hf with h | h <;> simp [h]

/-- Witness for `forward_ambiguous_emit_unmodified`: ten `'A'`s classify
`Forward` (bestT 0, bestA 5, diff 5 ≥ 5) and the record is emitted
unmodified by both loop bodies. -/
theorem forward_ambiguous_emit_unmodified_witness :
    (classifySeq 5 "AAAAAAAAAA".toList = Classification.Forward ∨
     classifySeq 5 "AAAAAAAAAA".toList = Classification.Ambiguous) ∧
    ((processAlignment 5 initStats ⟨"q", "AAAAAAAAAA".toList⟩).2
        = ⟨"q", "AAAAAAAAAA".toList⟩ ∧
     (processFastx 5 initStats ⟨"q", "AAAAAAAAAA".toList, none⟩).2
        = ⟨"q", "AAAAAAAAAA".toList, none⟩) :=
  ⟨Or.inl (by decide),
   forward_ambiguous_emit_unmodified 5 initStats initStats
     ⟨"q", "AAAAAAAAAA".toList⟩ ⟨"q", "AAAAAAAAAA".toList, none⟩
     (Or.inl (by decide)) (Or.inl (by decide))⟩

/-- The bucket recorded by `max_poly[current_poly_base] = max(..., n)` when
the target is `'T'`: `maxT` takes the max, case of the target base. -/
theorem updateBucket_maxT_of_T (s : ScanState) (n : Nat)
    (h : s.current_poly_base = 'T') :
    (updateBucket s n).maxT = max s.maxT n := by
  unfold updateBucket; rw [if_pos h]

/-- `maxA` is untouched when the target is `'T'`. -/
theorem updateBucket_maxA_of_T (s : ScanState) (n : Nat)
    (h : s.current_poly_base = 'T') :
    (updateBucket s n).maxA = s.maxA := by
  unfold updateBucket; rw [if_pos h]

/-- `maxT` is untouched when the target is `'A'`. -/
theorem updateBucket_maxT_of_A (s : ScanState) (n : Nat)
    (h : s.current_poly_base = 'A') :
    (updateBucket s n).maxT = s.maxT := by
  unfold updateBucket
  have hT : ¬ s.current_poly_base = 'T' := by rw [h]; decide
  rw [if_neg hT, if_pos h]

/-- `maxA` takes the max when the target is `'A'`. -/
theorem updateBucket_maxA_of_A (s : ScanState) (n : Nat)
    (h : s.current_poly_base = 'A') :
    (updateBucket s n).maxA = max s.maxA n := by
  unfold updateBucket
  have hT : ¬ s.current_poly_base = 'T' := by rw [h]; decide
  rw [if_neg hT, if_pos h]

/-- The dict update never changes the run length. -/
theorem updateBucket_current_poly_length (s : ScanState) (n : Nat) :
    (updateBucket s n).current_poly_length = s.current_poly_length := by
  unfold updateBucket; split_ifs <;> rfl

/-- The dict update never changes the mismatch count. -/
theorem updateBucket_current_mismatches (s : ScanState) (n : Nat) :
    (updateBucket s n).current_mismatches = s.current_mismatches := by
  unfold updateBucket; split_ifs <;> rfl

/-- The dict update never changes the target base. -/
theorem updateBucket_current_poly_base (s : ScanState) (n : Nat) :
    (updateBucket s n).current_poly_base = s.current_poly_base := by
  unfold updateBucket; split_ifs <;> rfl

/-- One loop iteration preserves the scanning invariant: `maxT` stays
within the first-half budget `half`, `maxA` within the second-half budget
`L - half`, the target is `'T'` with run length at most `i` while
`i ≤ half`, and `'A'` with run length at most `i - half` afterwards. -/
theorem find_poly_step_inv (max_mismatches L half i : Nat) (s : ScanState)
    (base : Char) (hiL : i < L)
    (hT : s.maxT ≤ half) (hA : s.maxA ≤ L - half)
    (hlo : i ≤ half → s.current_poly_base = 'T' ∧ s.current_poly_length ≤ i)
    (hhi : half < i → s.current_poly_base = 'A' ∧
      s.current_poly_length ≤ i - half) :
    (find_poly_step max_mismatches half s i base).maxT ≤ half ∧
    (find_poly_step max_mismatches half s i base).maxA ≤ L - half ∧
    (i + 1 ≤ half →
      (find_poly_step max_mismatches half s i base).current_poly_base =
        'T' ∧
      (find_poly_step max_mismatches half s i base).current_poly_length ≤
        i + 1) ∧
    (half < i + 1 →
      (find_poly_step max_mismatches half s i base).current_poly_base =
        'A' ∧
      (find_poly_step max_mismatches half s i base).current_poly_length ≤
        i + 1 - half) := by
  rcases Nat.lt_trichotomy i half with hlt | heq | hgt
  · obtain ⟨hpb, hrun⟩ := hlo (le_of_lt hlt)
    have hne : i ≠ half := Nat.ne_of_lt hlt
    simp only [find_poly_step, if_neg hne]
    split_ifs with hb hm <;>
      refine ⟨?_, ?_, fun h9 => ⟨?_, ?_⟩, fun h9 => ⟨?_, ?_⟩⟩ <;>
      (try simp only [updateBucket_maxT_of_T, updateBucket_maxA_of_T,
        updateBucket_current_poly_length, updateBucket_current_mismatches,
        updateBucket_current_poly_base, hpb]) <;>
      first | rfl | omega
  · simp only [find_poly_step, if_pos heq]
    split_ifs with hb hm <;>
      refine ⟨?_, ?_, fun h9 => ⟨?_, ?_⟩, fun h9 => ⟨?_, ?_⟩⟩ <;>
      (try simp only [updateBucket_maxT_of_A, updateBucket_maxA_of_A,
        updateBucket_current_poly_length, updateBucket_current_mismatches,
        updateBucket_current_poly_base]) <;>
      first | rfl | omega
  · obtain ⟨hpb, hrun⟩ := hhi hgt
    have hne : i ≠ half := Nat.ne_of_gt hgt
    simp only [find_poly_step, if_neg hne]
    split_ifs with hb hm <;>
      refine ⟨?_, ?_, fun h9 => ⟨?_, ?_⟩, fun h9 => ⟨?_, ?_⟩⟩ <;>
      (try simp only [updateBucket_maxT_of_A, updateBucket_maxA_of_A,
        updateBucket_current_poly_length, updateBucket_current_mismatches,
        updateBucket_current_poly_base, hpb]) <;>
      first | rfl | omega

/-- The scanning invariant carried along the whole loop bounds the final
best values. -/
theorem find_poly_go_bounds (max_mismatches L half : Nat) :
    ∀ (l : List Char) (i : Nat) (s : ScanState), i + l.length = L →
      s.maxT ≤ half → s.maxA ≤ L - half →
      (i ≤ half → s.current_poly_base = 'T' ∧
        s.current_poly_length ≤ i) →
      (half < i → s.current_poly_base = 'A' ∧
        s.current_poly_length ≤ i - half) →
      (find_poly_go max_mismatches half i s l).maxT ≤ half ∧
      (find_poly_go max_mismatches half i s l).maxA ≤ L - half
  | [], i, s, hlen, hT, hA, hlo, hhi => ⟨hT, hA⟩
  | base :: rest, i, s, hlen, hT, hA, hlo, hhi => by
      have hiL : i < L := by simp at hlen; omega
      obtain ⟨h1, h2, h3, h4⟩ :=
        find_poly_step_inv max_mismatches L half i s base hiL hT hA hlo hhi
      have hlen2 : (i + 1) + rest.length = L := by simp at hlen; omega
      exact find_poly_go_bounds max_mismatches L half rest (i + 1)
        (find_poly_step max_mismatches half s i base) hlen2 h1 h2 h3 h4

/-- C10: for every sequence of length `L` and every mismatch tolerance,
the scanner's `bestT` is at most `floor(L/2)` and its `bestA` at most
`L - floor(L/2)`: the T bucket only accumulates while the target is `'T'`
(first half) and the A bucket only while it is `'A'` (second half), so even
a poly-T tail spanning the whole read reports at most `floor(L/2)`. -/
theorem find_poly_bounds (sequence : List Char) (max_mismatches : Nat) :
    (find_poly sequence max_mismatches).1 ≤ sequence.length / 2 ∧
    (find_poly sequence max_mismatches).2 ≤
      sequence.length - sequence.length / 2 := by
  have h := find_poly_go_bounds max_mismatches sequence.length
    (sequence.length / 2) sequence 0 initScanState (by simp)
    (by simp [initScanState]) (by simp [initScanState])
    (fun _ => by simp [initScanState]) (fun hcon => absurd hcon (by omega))
  exact h

end OrientSeq
